import Mathlib

/-!
Verification of the telemetry acquisition and aggregation core of the
Network-Intrusion-Detection frontend (src/frontend/src/App.js).

The stateful React component is embedded as explicit state passing: the
component's state hooks become fields of `AppState`, each async handler
becomes a pure function from the pre-state (plus the classifier's response,
the generated sample and the timestamp, which are the handler's inputs) to
the post-state.  The remote classifier is abstracted as an `ApiResult`
value: `conn` models a thrown transport error (axios rejection), `ok`
models a 2xx response carrying optional `prediction`, `confidence` and
`reason` fields.  JavaScript string truthiness (`""` is falsy) and the
`x || d` defaulting idiom are modelled explicitly.  Explanation strings are
modelled as `List Char`; `String.replace(pat, rep)` with a string pattern,
which in JavaScript rewrites only the first occurrence, is `replaceFirst`.

Fields of the component that no claim touches (formData contents, the UI
tab, loading flag, the per-row list stored alongside the chart summary in
`randomResults`) are omitted; every modelled field follows the source.
-/

/-- String constants of the source, named so that literals never directly
follow an identifier. -/
def emptyStr : String := ""

def maliciousStr : String := "Malicious"

def normalStr : String := "Normal"

def dstPortStr : String := "Dst Port"

def connErrMsg : String := "Failed to connect to API. Make sure the Flask server is running."

def defaultReason : String := "No explanation provided."

def errPredMsg : String := "Error making prediction."

def unexpectedMsg : String := "Unexpected response format"

/-- The `featureLabels` map of App.js (lines 22-35): internal field key to
display label, in object-literal order. -/
def featureLabels : List (String × String) :=
  [("Dst Port", "Destination Port"),
   ("Flow Duration", "Flow Duration (ms)"),
   ("Tot Fwd Pkts", "Total Forward Packets"),
   ("Tot Bwd Pkts", "Total Backward Packets"),
   ("Flow Byts/s", "Flow Bytes per Second"),
   ("Flow Pkts/s", "Flow Packets per Second"),
   ("Pkt Len Max", "Packet Length Maximum"),
   ("Pkt Len Mean", "Packet Length Mean"),
   ("Pkt Len Std", "Packet Length Standard Deviation"),
   ("SYN Flag Cnt", "SYN Flag Count"),
   ("ACK Flag Cnt", "ACK Flag Count"),
   ("FIN Flag Cnt", "FIN Flag Count")]

/-- The internal field keys, i.e. `Object.keys(featureLabels)`. -/
def featureKeys : List String := featureLabels.map Prod.fst

/-- One inclusive generation range of `randomRanges` (App.js lines 52-65). -/
structure GenRange where
  min : Int
  max : Int
deriving DecidableEq

/-- The `randomRanges` map of App.js (lines 52-65). -/
def randomRanges : List (String × GenRange) :=
  [("Dst Port", ⟨1, 65535⟩),
   ("Flow Duration", ⟨10, 10000⟩),
   ("Tot Fwd Pkts", ⟨1, 100⟩),
   ("Tot Bwd Pkts", ⟨1, 100⟩),
   ("Flow Byts/s", ⟨100, 100000⟩),
   ("Flow Pkts/s", ⟨1, 1000⟩),
   ("Pkt Len Max", ⟨40, 1500⟩),
   ("Pkt Len Mean", ⟨40, 800⟩),
   ("Pkt Len Std", ⟨0, 400⟩),
   ("SYN Flag Cnt", ⟨0, 10⟩),
   ("ACK Flag Cnt", ⟨0, 20⟩),
   ("FIN Flag Cnt", ⟨0, 10⟩)]

/-- `generateRandomValue` (App.js lines 115-117):
`Math.floor(Math.random() * (max - min + 1)) + min`.  `Math.random()` is
modelled as an exact rational `q` with `0 ≤ q < 1`. -/
def generateRandomValue (lo hi : Int) (q : ℚ) : Int :=
  ⌊q * ((hi - lo + 1 : Int) : ℚ)⌋ + lo

/-- `generateRandomData` (App.js lines 119-126): one draw per configured
field; the random source supplies one rational per field. -/
def generateRandomData (qs : String → ℚ) : List (String × Int) :=
  randomRanges.map (fun fr => (fr.1, generateRandomValue fr.2.min fr.2.max (qs fr.1)))

/-- Boolean prefix test on character lists: `startsWith k s` holds when the
pattern `k` begins the text `s` (the position-0 match test of
`String.prototype.replace` with a string pattern). -/
def startsWith : List Char → List Char → Bool
  | [], _ => true
  | _ :: _, [] => false
  | a :: as, b :: bs => (a == b) && startsWith as bs

/-- Boolean substring test: `occursB k s` holds when the pattern `k`
occurs (contiguously) somewhere in `s`. -/
def occursB (k : List Char) : List Char → Bool
  | [] => startsWith k []
  | c :: rest => startsWith k (c :: rest) || occursB k rest

/-- JavaScript `text.replace(k, l)` with a string pattern `k`: rewrites the
first (leftmost) occurrence of `k` to `l` and leaves the rest of the text
unchanged; returns the text unchanged when `k` does not occur. -/
def replaceFirst (k l : List Char) : List Char → List Char
  | [] => if startsWith k [] then l else []
  | c :: rest =>
      if startsWith k (c :: rest) then l ++ (c :: rest).drop k.length
      else c :: replaceFirst k l rest

/-- The explanation-rewriting step shared by `handleSubmit`,
`makeContinuousPrediction` and `generateMultipleRandomPredictions`
(App.js lines 95-97, 193-195, 265-267):
`Object.keys(featureLabels).forEach(key => text = text.replace(key, featureLabels[key]))`. -/
def annotateReason (s : List Char) : List Char :=
  featureLabels.foldl (fun acc kl => replaceFirst kl.1.toList kl.2.toList acc) s

/-- JavaScript `o || d` for an optional string field: the default `d` is
used when the field is absent or the empty string (falsy). -/
def jsOr (o : Option String) (d : String) : String :=
  match o with
  | none => d
  | some s => if s = emptyStr then d else s

/-- The classifier call's outcome, as the handlers observe it:
`conn` is a rejected request (transport/connection failure, the `catch`
path); `ok pred conf rsn` is a fulfilled request whose body has the given
optional `prediction`, `confidence` and `reason` fields. -/
inductive ApiResult where
  | conn : ApiResult
  | ok : Option String → Option ℚ → Option String → ApiResult
deriving DecidableEq

/-- One element of `timeSeriesData` (App.js lines 205-211). -/
structure HistoryEntry where
  time : Nat
  data : List (String × Int)
  prediction : String
  confidence : ℚ
  reason : List Char
deriving DecidableEq

/-- The window append of `makeContinuousPrediction` (App.js lines 203-217):
push the new point, then keep only the most recent 20 via
`newData.slice(newData.length - 20)`. -/
def appendWindow (w : List HistoryEntry) (e : HistoryEntry) : List HistoryEntry :=
  let n := w ++ [e]
  if n.length > 20 then n.drop (n.length - 20) else n

/-- `timeSeriesData` built by folding `appendWindow` over a session's
successful ticks, starting from the empty window. -/
def windowOf (xs : List HistoryEntry) : List HistoryEntry :=
  xs.foldl appendWindow []

/-- `timeSeriesData.filter(item => item.prediction === lbl).length`
(App.js lines 220-221). -/
def countLabel (lbl : String) (w : List HistoryEntry) : Nat :=
  (w.filter (fun e => e.prediction == lbl)).length

/-- The component state touched by the claims: `isContinuous`,
`intervalRef.current !== null`, `timeSeriesData`, `prediction`, `reason`,
`errorMessage`, and the `chartData` summary element that the continuous
tick stores into `randomResults` (App.js lines 231-236). -/
structure AppState where
  running : Bool
  intervalSet : Bool
  window : List HistoryEntry
  prediction : String
  reason : List Char
  errorMessage : String
  resultsChart : Option (Nat × Nat)
deriving DecidableEq

/-- The history entry a successful tick appends (App.js lines 205-211):
`{time, data, prediction, confidence: response.data.confidence || 0,
reason: annotated reason}`. -/
def mkEntry (t : Nat) (rnd : List (String × Int)) (p : String)
    (c : Option ℚ) (q : Option String) : HistoryEntry :=
  { time := t, data := rnd, prediction := p, confidence := c.getD 0,
    reason := annotateReason ((jsOr q defaultReason).toList) }

/-- The resolution of one continuous tick, `makeContinuousPrediction`
(App.js lines 181-250), given the pre-state, the generated sample `rnd`,
the timestamp `t` and the classifier outcome `r`.
On a fulfilled response bearing a truthy `prediction`: set the latest
prediction, annotate and set the reason, clear the error message, append
to the window, and store the Malicious/Normal chart counts — which the
source computes by filtering the `timeSeriesData` value captured by the
callback's closure, a snapshot that does not contain the entry appended by
this tick (modelled as the pre-append window `st.window`).
On a fulfilled response without a truthy `prediction`: the guarded block
is skipped entirely, so the state is unchanged.
On a rejected request (`catch`): set the error message, clear the interval
and leave continuous mode; the window is not touched.
Note the source consults neither `isContinuous` nor the interval before
appending: a late resolution appends even after a stop. -/
def resolveTick (st : AppState) (rnd : List (String × Int)) (t : Nat)
    (r : ApiResult) : AppState :=
  match r with
  | .conn =>
      { st with errorMessage := connErrMsg, intervalSet := false, running := false }
  | .ok none _ _ => st
  | .ok (some p) c q =>
      if p = emptyStr then st
      else
        let e := mkEntry t rnd p c q
        { st with
          prediction := p,
          reason := e.reason,
          errorMessage := emptyStr,
          window := appendWindow st.window e,
          resultsChart := some (countLabel maliciousStr st.window, countLabel normalStr st.window) }

/-- The stop branch of `toggleContinuousPrediction` (App.js lines 160-165):
clear the interval if set, null the ref, leave continuous mode.  The
window, results and messages are untouched. -/
def stopBranch (st : AppState) : AppState :=
  { st with intervalSet := false, running := false }

/-- The start branch of `toggleContinuousPrediction` (App.js lines 167-178):
enter continuous mode, reset `timeSeriesData`, schedule the interval (the
immediately fired first tick is a separate `resolveTick` event). -/
def startBranch (st : AppState) : AppState :=
  { st with running := true, window := [], intervalSet := true }

/-- `toggleContinuousPrediction` (App.js lines 158-179): the single control
the component exposes — it stops when running and starts when idle. -/
def toggle (st : AppState) : AppState :=
  if st.running then stopBranch st else startBranch st

/-- `handleSubmit` (App.js lines 80-113), the single manual submission,
given the pre-state and the classifier outcome.  No branch touches
`timeSeriesData`.  A fulfilled response without a truthy `prediction` sets
the "Unexpected response format" banner (and does not set `errorMessage`);
a rejected request sets the error banner and message. -/
def handleSubmit (st : AppState) (r : ApiResult) : AppState :=
  match r with
  | .conn =>
      { st with prediction := errPredMsg, reason := [], errorMessage := connErrMsg }
  | .ok none _ _ => { st with prediction := unexpectedMsg, reason := [] }
  | .ok (some p) _ q =>
      if p = emptyStr then { st with prediction := unexpectedMsg, reason := [] }
      else
        { st with prediction := p,
                  reason := annotateReason ((jsOr q defaultReason).toList),
                  errorMessage := emptyStr }

/-- One row of the batch `results` array (App.js lines 269-274); the
per-item generated sample is stored too in the source but referenced by no
claim, so it is omitted here. -/
structure BatchEntry where
  id : Nat
  prediction : String
  reason : List Char
deriving DecidableEq

/-- The accumulator of `generateMultipleRandomPredictions` (App.js lines
252-301): `results`, `maliciousCount`, `normalCount` and the component's
`errorMessage`. -/
structure BatchOutcome where
  results : List BatchEntry
  malicious : Nat
  normal : Nat
  errorMessage : String
deriving DecidableEq

/-- One iteration of the batch loop body (App.js lines 258-289) at loop
index `i`: a rejected request only sets the error message (the loop
continues); a fulfilled response with a truthy `prediction` appends
`{id: i+1, prediction, reason}` and bumps exactly one bucket
(`Malicious` when the label is exactly "Malicious", else `Normal`);
a fulfilled response without a truthy `prediction` is skipped silently. -/
def batchStep (i : Nat) (acc : BatchOutcome) (r : ApiResult) : BatchOutcome :=
  match r with
  | .conn => { acc with errorMessage := connErrMsg }
  | .ok none _ _ => acc
  | .ok (some p) _ q =>
      if p = emptyStr then acc
      else
        { acc with
          results := acc.results ++ [⟨i + 1, p, annotateReason ((jsOr q defaultReason).toList)⟩],
          malicious := if p = maliciousStr then acc.malicious + 1 else acc.malicious,
          normal := if p = maliciousStr then acc.normal else acc.normal + 1 }

/-- The `for (let i = 0; i < count; i++)` loop of
`generateMultipleRandomPredictions`, one `ApiResult` per item. -/
def runBatchLoop : Nat → List ApiResult → BatchOutcome → BatchOutcome
  | _, [], acc => acc
  | i, r :: rest, acc => runBatchLoop (i + 1) rest (batchStep i acc r)

/-- `generateMultipleRandomPredictions` (App.js lines 252-301) on a given
sequence of per-item classifier outcomes, starting from empty results,
zero counts and no error message. -/
def runBatch (rs : List ApiResult) : BatchOutcome :=
  runBatchLoop 0 rs ⟨[], 0, 0, emptyStr⟩

/-- Is the outcome a fulfilled (non-rejected) request? -/
def isOkResult : ApiResult → Bool
  | .conn => false
  | .ok _ _ _ => true

/-- Is the outcome a rejected request? -/
def isConnResult : ApiResult → Bool
  | .conn => true
  | .ok _ _ _ => false

/-- Does the outcome enter the guarded success block, i.e. is it fulfilled
with a truthy `prediction`? -/
def usableResult : ApiResult → Bool
  | .conn => false
  | .ok none _ _ => false
  | .ok (some p) _ _ => if p = emptyStr then false else true

/-- Is the outcome counted in the `Malicious` bucket by the batch loop? -/
def isMaliciousResult : ApiResult → Bool
  | .ok (some p) _ _ =>
      if p = emptyStr then false else (if p = maliciousStr then true else false)
  | _ => false

/-- Is the outcome counted in the `Normal` bucket by the batch loop? -/
def isNormalBucket : ApiResult → Bool
  | .ok (some p) _ _ =>
      if p = emptyStr then false else (if p = maliciousStr then false else true)
  | _ => false

/-- A component state in idle mode with an empty window and no messages. -/
def stIdle : AppState :=
  { running := false, intervalSet := false, window := [], prediction := emptyStr,
    reason := [], errorMessage := emptyStr, resultsChart := none }

/-- A component state in continuous mode with an empty window. -/
def stRun : AppState :=
  { running := true, intervalSet := true, window := [], prediction := emptyStr,
    reason := [], errorMessage := emptyStr, resultsChart := none }

/-- A concrete history entry. -/
def entry0 : HistoryEntry :=
  { time := 0, data := [], prediction := normalStr, confidence := 0, reason := [] }

/-- A running state whose window already holds one entry. -/
def stRunWithEntry : AppState := { stRun with window := [entry0] }

/-- An explanation text mentioning the internal key "Dst Port" twice. -/
def dstPortTwice : String := "Dst Port Dst Port"

/-- An explanation text mentioning no internal field key. -/
def plainText : String := "hello world"

/-- A batch of five classifier outcomes in which item 3 (loop index 2) is
a rejected request and the other four are fulfilled with label "Normal". -/
def rsBatch5 : List ApiResult :=
  [ApiResult.ok (some normalStr) none none,
   ApiResult.ok (some normalStr) none none,
   ApiResult.conn,
   ApiResult.ok (some normalStr) none none,
   ApiResult.ok (some normalStr) none none]

/-- A batch of one fulfilled response whose `prediction` label is the empty
string (falsy in JavaScript). -/
def rsEmptyLabel : List ApiResult := [ApiResult.ok (some emptyStr) none none]

/-- Unfolding of `appendWindow` with the length of the pushed list exposed. -/
lemma appendWindow_eq (w : List HistoryEntry) (e : HistoryEntry) :
    appendWindow w e =
      if w.length + 1 > 20 then (w ++ [e]).drop (w.length + 1 - 20) else w ++ [e] := by
  simp [appendWindow]

/-- The session window after any sequence of appends is the last 20 of the
appended entries, in order. -/
lemma windowOf_drop (xs : List HistoryEntry) : windowOf xs = xs.drop (xs.length - 20) := by
  induction xs using List.reverseRecOn with
  | nil => rfl
  | append_singleton l a ih =>
      have h1 : windowOf (l ++ [a]) = appendWindow (windowOf l) a := by
        simp [windowOf, List.foldl_append]
      rw [h1, ih, appendWindow_eq]
      simp only [List.length_append, List.length_drop, List.length_cons, List.length_nil]
      rcases le_or_lt 20 l.length with hl | hl
      · rw [if_pos (by omega)]
        rw [List.drop_append_of_le_length (by rw [List.length_drop]; omega)]
        rw [List.drop_drop]
        rw [List.drop_append_of_le_length (by omega)]
        have he : l.length - 20 + (l.length - (l.length - 20) + 1 - 20) = l.length + 1 - 20 := by
          omega
        rw [he]
      · rw [if_neg (by omega)]
        have h0 : l.length - 20 = 0 := by omega
        have h1' : l.length + 1 - 20 = 0 := by omega
        rw [h0, h1', List.drop_zero, List.drop_zero]

/-- Claim C3: the History Window never exceeds 20 entries; it always equals
the suffix of the appended entries of length at most 20 (FIFO eviction,
insertion order kept, most-recent-last); in particular after the 21st
append of a session the 1st entry is gone and the rest survive in order. -/
theorem window_capacity_fifo :
    (∀ xs : List HistoryEntry, (windowOf xs).length ≤ 20) ∧
    (∀ xs : List HistoryEntry, windowOf xs = xs.drop (xs.length - 20)) ∧
    (∀ xs : List HistoryEntry, xs.length = 21 → windowOf xs = xs.drop 1) := by
  refine ⟨?_, windowOf_drop, ?_⟩
  · intro xs
    rw [windowOf_drop, List.length_drop]
    omega
  · intro xs h
    rw [windowOf_drop, h]

/-- Witness for C3 at a concrete 21-entry session. -/
theorem window_capacity_fifo_witness :
    windowOf (List.replicate 21 entry0) = (List.replicate 21 entry0).drop 1 :=
  window_capacity_fifo.2.2 (List.replicate 21 entry0) (by simp)

/-- Claim C4 (amended): only a rejected request (ConnectionError) is fatal
to the continuous session — it sets the error message, clears the interval
and leaves continuous mode while keeping the window; a fulfilled response
without a usable label (missing or empty `prediction`) leaves the entire
state unchanged: the controller stays Running and no error is surfaced. -/
theorem tick_failure_semantics :
    (∀ (st : AppState) (rnd : List (String × Int)) (t : Nat),
      resolveTick st rnd t ApiResult.conn =
        { st with errorMessage := connErrMsg, intervalSet := false, running := false }) ∧
    (∀ (st : AppState) (rnd : List (String × Int)) (t : Nat) (c : Option ℚ) (q : Option String),
      resolveTick st rnd t (ApiResult.ok none c q) = st) ∧
    (∀ (st : AppState) (rnd : List (String × Int)) (t : Nat) (c : Option ℚ) (q : Option String),
      resolveTick st rnd t (ApiResult.ok (some emptyStr) c q) = st) := by
  refine ⟨fun st rnd t => rfl, fun st rnd t c q => rfl, fun st rnd t c q => ?_⟩
  simp [resolveTick]

/-- Counterexample to claim C4 as stated: a Running tick that resolves to a
response without a usable label does not transition the controller to Idle
and surfaces no error — the state is left exactly as it was. -/
theorem schema_error_not_fatal_counterexample :
    stRun.running = true ∧
    (resolveTick stRun [] 0 (ApiResult.ok none none none)).running = true ∧
    (resolveTick stRun [] 0 (ApiResult.ok none none none)).errorMessage = emptyStr ∧
    resolveTick stRun [] 0 (ApiResult.ok none none none) = stRun := by
  decide

/-- Claim C5 (amended): the resolution of an in-flight tick ignores the
controller state entirely — its effect on the window is identical whether
the controller is Running or Idle, and a usable response appends to the
window even when the controller is no longer Running. -/
theorem tick_append_ignores_stop :
    (∀ (st : AppState) (rnd : List (String × Int)) (t : Nat) (r : ApiResult),
      (resolveTick { st with running := false } rnd t r).window =
        (resolveTick { st with running := true } rnd t r).window) ∧
    (∀ (st : AppState) (rnd : List (String × Int)) (t : Nat) (p : String)
        (c : Option ℚ) (q : Option String), st.running = false → p ≠ emptyStr →
      (resolveTick st rnd t (ApiResult.ok (some p) c q)).window =
        appendWindow st.window (mkEntry t rnd p c q)) := by
  constructor
  · intro st rnd t r
    cases r with
    | conn => rfl
    | ok p c q =>
        cases p with
        | none => rfl
        | some v =>
            by_cases hv : v = emptyStr
            · simp [resolveTick, hv]
            · simp [resolveTick, hv]
  · intro st rnd t p c q _ hp
    simp [resolveTick, hp]

/-- Witness for C5 (amended) at a concrete stopped state. -/
theorem tick_append_ignores_stop_witness :
    (resolveTick stIdle [] 0 (ApiResult.ok (some normalStr) none none)).window =
      appendWindow stIdle.window (mkEntry 0 [] normalStr none none) :=
  tick_append_ignores_stop.2 stIdle [] 0 normalStr none none rfl (by decide)

/-- Counterexample to claim C5 as stated: with the controller Idle (after a
stop), a resolving in-flight tick still appends its entry to the window. -/
theorem append_after_stop_counterexample :
    stIdle.running = false ∧
    ((resolveTick stIdle [] 0 (ApiResult.ok (some normalStr) none none)).window).length = 1 := by
  decide

/-- Claim C7 (amended): the stop branch of the toggle is idempotent as a
state transformer; but the component exposes only a toggle — invoked while
Running it executes the stop branch (there is no start-while-Running
no-op), and the start branch always resets the History Window to empty. -/
theorem stop_idempotent_toggle_semantics :
    (∀ st : AppState, stopBranch (stopBranch st) = stopBranch st) ∧
    (∀ st : AppState, st.running = true → toggle st = stopBranch st) ∧
    (∀ st : AppState, (startBranch st).window = []) := by
  refine ⟨fun st => rfl, ?_, fun st => rfl⟩
  intro st h
  simp [toggle, h]

/-- Witness for C7 (amended) at a concrete Running state. -/
theorem stop_idempotent_toggle_semantics_witness :
    toggle stRun = stopBranch stRun :=
  stop_idempotent_toggle_semantics.2.1 stRun rfl

/-- Counterexample to claim C7 as stated: on an already-Running controller
holding one window entry, the start branch resets the window (so it is not
a window-preserving no-op), and the exposed control (the toggle) leaves
Running instead of staying there. -/
theorem start_on_running_counterexample :
    stRunWithEntry.running = true ∧
    stRunWithEntry.window ≠ [] ∧
    (startBranch stRunWithEntry).window = [] ∧
    (toggle stRunWithEntry).running = false := by
  decide

/-- Claim C9: a single manual submission never touches the History Window,
whatever the outcome; on a rejected request the failure is surfaced via
the error message and the error banner, and on a fulfilled response
without a usable label via the "Unexpected response format" banner. -/
theorem submitOnce_error_frame :
    ∀ (st : AppState) (r : ApiResult),
      (handleSubmit st r).window = st.window ∧
      (r = ApiResult.conn →
        (handleSubmit st r).errorMessage = connErrMsg ∧
        (handleSubmit st r).prediction = errPredMsg) ∧
      (∀ (c : Option ℚ) (q : Option String), r = ApiResult.ok none c q →
        (handleSubmit st r).prediction = unexpectedMsg) := by
  intro st r
  cases r with
  | conn =>
      exact ⟨rfl, fun _ => ⟨rfl, rfl⟩, by intro c q h; simp at h⟩
  | ok p c q =>
      cases p with
      | none => exact ⟨rfl, by intro h; simp at h, fun c' q' _ => rfl⟩
      | some v =>
          by_cases hv : v = emptyStr
          · refine ⟨by simp [handleSubmit, hv], by intro h; simp at h, ?_⟩
            intro c' q' h
            simp at h
          · refine ⟨by simp [handleSubmit, hv], by intro h; simp at h, ?_⟩
            intro c' q' h
            simp at h

/-- Witness for C9 at a concrete state and a rejected request. -/
theorem submitOnce_error_frame_witness :
    (handleSubmit stIdle ApiResult.conn).window = stIdle.window ∧
    (handleSubmit stIdle ApiResult.conn).errorMessage = connErrMsg :=
  ⟨(submitOnce_error_frame stIdle ApiResult.conn).1,
   ((submitOnce_error_frame stIdle ApiResult.conn).2.1 rfl).1⟩

/-- Claim C1 (code evaluated at the failing input): on the first successful
tick of a fresh continuous session (empty window, label "Normal") the
window now holds 1 entry, yet the stored Distribution Summary is
`{malicious: 0, normal: 0}` — computed from the stale pre-append snapshot,
so the counts sum to 0, not to the current window length 1. -/
theorem distribution_stale_first_tick :
    ((resolveTick (startBranch stIdle) [] 0 (ApiResult.ok (some normalStr) none none)).window).length = 1 ∧
    (resolveTick (startBranch stIdle) [] 0 (ApiResult.ok (some normalStr) none none)).resultsChart =
      some (0, 0) := by
  decide

/-- `startsWith` agrees with list-prefix decomposition. -/
lemma startsWith_iff : ∀ (k s : List Char), startsWith k s = true ↔ ∃ t, s = k ++ t := by
  intro k
  induction k with
  | nil =>
      intro s
      simp [startsWith]
  | cons a as ih =>
      intro s
      cases s with
      | nil => simp [startsWith]
      | cons b bs =>
          simp only [startsWith, Bool.and_eq_true, beq_iff_eq, ih bs, List.cons_append,
            List.cons.injEq]
          constructor
          · rintro ⟨hab, t, ht⟩
            exact ⟨t, hab.symm, ht⟩
          · rintro ⟨t, hba, ht⟩
            exact ⟨hba.symm, t, ht⟩

/-- A pattern that does not occur is not replaced. -/
lemma replaceFirst_of_not_occurs (k l : List Char) :
    ∀ s, occursB k s = false → replaceFirst k l s = s := by
  intro s
  induction s with
  | nil =>
      intro h
      simp only [occursB] at h
      simp [replaceFirst, h]
  | cons c rest ih =>
      intro h
      simp only [occursB, Bool.or_eq_false_iff] at h
      simp [replaceFirst, h.1, ih h.2]

/-- A text in which no configured key occurs passes through the whole
key-substitution fold unchanged. -/
lemma foldl_replaceFirst_no_occur :
    ∀ (ps : List (String × String)) (s : List Char),
      (∀ p ∈ ps, occursB p.1.toList s = false) →
      ps.foldl (fun acc kl => replaceFirst kl.1.toList kl.2.toList acc) s = s := by
  intro ps
  induction ps with
  | nil => intro s _; rfl
  | cons p rest ih =>
      intro s h
      have h0 : occursB p.1.toList s = false := h p (List.mem_cons_self p rest)
      simp only [List.foldl_cons]
      rw [replaceFirst_of_not_occurs _ _ _ h0]
      exact ih s (fun q hq => h q (List.mem_cons_of_mem p hq))

/-- `replaceFirst` rewrites exactly the leftmost occurrence of the pattern:
the text splits as `a ++ k ++ b` with `a` shortest possible, and the
result is `a ++ l ++ b`. -/
lemma replaceFirst_first_occurrence (k l : List Char) :
    ∀ s, occursB k s = true →
      ∃ a b, s = a ++ k ++ b ∧ replaceFirst k l s = a ++ l ++ b ∧
        ∀ c d, s = c ++ k ++ d → a.length ≤ c.length := by
  intro s
  induction s with
  | nil =>
      intro h
      simp only [occursB] at h
      obtain ⟨t, ht⟩ := (startsWith_iff k []).mp h
      obtain ⟨hk, ht0⟩ := List.append_eq_nil.mp ht.symm
      subst hk
      exact ⟨[], [], by simp, by simp [replaceFirst, startsWith], fun c d _ => Nat.zero_le _⟩
  | cons ch rest ih =>
      intro h
      by_cases hp : startsWith k (ch :: rest) = true
      · obtain ⟨t, ht⟩ := (startsWith_iff k (ch :: rest)).mp hp
        have hd : (ch :: rest).drop k.length = t := by
          rw [ht]
          exact List.drop_left k t
        refine ⟨[], t, by simp [ht], ?_, fun c d _ => Nat.zero_le _⟩
        simp [replaceFirst, hp, hd]
      · have h' : occursB k rest = true := by
          simp only [occursB, Bool.or_eq_true] at h
          rcases h with h | h
          · exact absurd h hp
          · exact h
        obtain ⟨a, b, hs, hr, hmin⟩ := ih h'
        refine ⟨ch :: a, b, by simp [hs], by simp [replaceFirst, hp, hr], ?_⟩
        intro c d hcd
        cases c with
        | nil =>
            simp only [List.nil_append] at hcd
            exact absurd ((startsWith_iff k (ch :: rest)).mpr ⟨d, by simpa using hcd⟩) hp
        | cons c0 c1 =>
            simp only [List.cons_append, List.cons.injEq] at hcd
            have := hmin c1 d hcd.2
            simp only [List.length_cons]
            omega

/-- Claim C2 (amended): the key-substitution step rewrites, per configured
key, only the first (leftmost) occurrence, not every occurrence: an
explanation in which no configured key occurs is returned unchanged, and a
single substitution rewrites exactly the leftmost occurrence of its key —
so a key occurring more than once, or one reintroduced by a display label
(the "Flow Duration" label itself contains the key), remains verbatim. -/
theorem annotate_first_occurrence_only :
    (∀ s : List Char, (∀ k ∈ featureKeys, occursB k.toList s = false) → annotateReason s = s) ∧
    (∀ (k l s : List Char), occursB k s = true →
      ∃ a b, s = a ++ k ++ b ∧ replaceFirst k l s = a ++ l ++ b ∧
        ∀ c d, s = c ++ k ++ d → a.length ≤ c.length) := by
  constructor
  · intro s h
    exact foldl_replaceFirst_no_occur featureLabels s
      (fun p hp => h p.1 (List.mem_map_of_mem Prod.fst hp))
  · intro k l s h
    exact replaceFirst_first_occurrence k l s h

/-- Witness for C2 (amended) on a concrete key-free explanation. -/
theorem annotate_first_occurrence_only_witness :
    annotateReason plainText.toList = plainText.toList :=
  annotate_first_occurrence_only.1 plainText.toList (by decide)

/-- Counterexample to claim C2 as stated: "Dst Port" has a configured
display label, yet annotating an explanation that mentions it twice leaves
the second occurrence verbatim in the output. -/
theorem annotate_leaves_key_counterexample :
    dstPortStr ∈ featureKeys ∧
    occursB dstPortStr.toList (annotateReason dstPortTwice.toList) = true := by
  decide

/-- The batch loop appends one result row per outcome that enters the
guarded success block, wherever rejected items sit in the sequence. -/
lemma runBatchLoop_results_length :
    ∀ (rs : List ApiResult) (i : Nat) (acc : BatchOutcome),
      (runBatchLoop i rs acc).results.length
        = acc.results.length + (rs.filter usableResult).length := by
  intro rs
  induction rs with
  | nil => intro i acc; simp [runBatchLoop]
  | cons r rest ih =>
      intro i acc
      cases r with
      | conn => simp [runBatchLoop, batchStep, usableResult, List.filter_cons, ih]
      | ok p c q =>
          cases p with
          | none => simp [runBatchLoop, batchStep, usableResult, List.filter_cons, ih]
          | some v =>
              by_cases hv : v = emptyStr
              · simp [runBatchLoop, batchStep, usableResult, List.filter_cons, hv, ih]
              · simp [runBatchLoop, batchStep, usableResult, List.filter_cons, hv, ih]
                omega

/-- The label "Malicious" is truthy. -/
lemma malicious_ne_empty : maliciousStr ≠ emptyStr := by decide

/-- The batch loop bumps the Malicious bucket exactly on outcomes counted
by `isMaliciousResult`. -/
lemma runBatchLoop_malicious :
    ∀ (rs : List ApiResult) (i : Nat) (acc : BatchOutcome),
      (runBatchLoop i rs acc).malicious
        = acc.malicious + (rs.filter isMaliciousResult).length := by
  intro rs
  induction rs with
  | nil => intro i acc; simp [runBatchLoop]
  | cons r rest ih =>
      intro i acc
      cases r with
      | conn => simp [runBatchLoop, batchStep, isMaliciousResult, List.filter_cons, ih]
      | ok p c q =>
          cases p with
          | none => simp [runBatchLoop, batchStep, isMaliciousResult, List.filter_cons, ih]
          | some v =>
              by_cases hv : v = emptyStr
              · simp [runBatchLoop, batchStep, isMaliciousResult, List.filter_cons, hv, ih]
              · by_cases hm : v = maliciousStr
                · simp [runBatchLoop, batchStep, isMaliciousResult, List.filter_cons, hv, hm,
                    malicious_ne_empty, ih]
                  omega
                · simp [runBatchLoop, batchStep, isMaliciousResult, List.filter_cons, hv, hm,
                    malicious_ne_empty, ih]

/-- The batch loop bumps the Normal bucket exactly on outcomes counted by
`isNormalBucket`. -/
lemma runBatchLoop_normal :
    ∀ (rs : List ApiResult) (i : Nat) (acc : BatchOutcome),
      (runBatchLoop i rs acc).normal
        = acc.normal + (rs.filter isNormalBucket).length := by
  intro rs
  induction rs with
  | nil => intro i acc; simp [runBatchLoop]
  | cons r rest ih =>
      intro i acc
      cases r with
      | conn => simp [runBatchLoop, batchStep, isNormalBucket, List.filter_cons, ih]
      | ok p c q =>
          cases p with
          | none => simp [runBatchLoop, batchStep, isNormalBucket, List.filter_cons, ih]
          | some v =>
              by_cases hv : v = emptyStr
              · simp [runBatchLoop, batchStep, isNormalBucket, List.filter_cons, hv, ih]
              · by_cases hm : v = maliciousStr
                · simp [runBatchLoop, batchStep, isNormalBucket, List.filter_cons, hv, hm,
                    malicious_ne_empty, ih]
                · simp [runBatchLoop, batchStep, isNormalBucket, List.filter_cons, hv, hm, ih]
                  omega

/-- The batch loop's error message after the run: the connection-failure
banner when some item was rejected, otherwise whatever it started as. -/
lemma runBatchLoop_error :
    ∀ (rs : List ApiResult) (i : Nat) (acc : BatchOutcome),
      (runBatchLoop i rs acc).errorMessage
        = (if rs.any isConnResult then connErrMsg else acc.errorMessage) := by
  intro rs
  induction rs with
  | nil => intro i acc; simp [runBatchLoop]
  | cons r rest ih =>
      intro i acc
      cases r with
      | conn => simp [runBatchLoop, batchStep, isConnResult, List.any_cons, ih]
      | ok p c q =>
          cases p with
          | none => simp [runBatchLoop, batchStep, isConnResult, List.any_cons, ih]
          | some v =>
              by_cases hv : v = emptyStr
              · simp [runBatchLoop, batchStep, isConnResult, List.any_cons, hv, ih]
              · simp [runBatchLoop, batchStep, isConnResult, List.any_cons, hv, ih]

/-- Every outcome that enters the guarded success block lands in exactly
one of the two buckets. -/
lemma usable_split :
    ∀ rs : List ApiResult,
      (rs.filter isMaliciousResult).length + (rs.filter isNormalBucket).length
        = (rs.filter usableResult).length := by
  intro rs
  induction rs with
  | nil => rfl
  | cons r rest ih =>
      cases r with
      | conn =>
          simpa [List.filter_cons, isMaliciousResult, isNormalBucket, usableResult] using ih
      | ok p c q =>
          cases p with
          | none =>
              simpa [List.filter_cons, isMaliciousResult, isNormalBucket, usableResult] using ih
          | some v =>
              by_cases hv : v = emptyStr
              · simpa [List.filter_cons, isMaliciousResult, isNormalBucket, usableResult, hv]
                  using ih
              · by_cases hm : v = maliciousStr
                · simp [List.filter_cons, isMaliciousResult, isNormalBucket, usableResult,
                    hv, hm, malicious_ne_empty]
                  omega
                · simp [List.filter_cons, isMaliciousResult, isNormalBucket, usableResult,
                    hv, hm, malicious_ne_empty]
                  omega

/-- Claim C6 (amended): a per-item rejected request does not abort the
batch — items after it still contribute, the result set holds exactly the
successful (usable) items, the failed item lands in neither bucket so the
two counts sum to the number of result rows, and the failure is surfaced
only through the session-level error banner (without any index). -/
theorem batch_continues_on_error :
    ∀ rs : List ApiResult,
      (runBatch rs).results.length = (rs.filter usableResult).length ∧
      (runBatch rs).malicious + (runBatch rs).normal = (runBatch rs).results.length ∧
      (runBatch rs).errorMessage
        = (if rs.any isConnResult then connErrMsg else emptyStr) := by
  intro rs
  refine ⟨?_, ?_, ?_⟩
  · simpa using runBatchLoop_results_length rs 0 ⟨[], 0, 0, emptyStr⟩
  · have h1 := runBatchLoop_results_length rs 0 (⟨[], 0, 0, emptyStr⟩ : BatchOutcome)
    have h2 := runBatchLoop_malicious rs 0 (⟨[], 0, 0, emptyStr⟩ : BatchOutcome)
    have h3 := runBatchLoop_normal rs 0 (⟨[], 0, 0, emptyStr⟩ : BatchOutcome)
    have h4 := usable_split rs
    simp only [runBatch] at *
    simp at h1 h2 h3
    omega
  · simpa using runBatchLoop_error rs 0 ⟨[], 0, 0, emptyStr⟩

/-- Counterexample to claim C6 as stated: in a 5-item batch whose 3rd item
is a rejected request, the result set records no entry for index 3 at all
— it holds exactly the four successful rows with ids 1, 2, 4, 5 — so no
reportable error for the failed index exists in the Batch Result Set. -/
theorem batch_error_not_recorded_counterexample :
    (runBatch rsBatch5).results.length = 4 ∧
    (runBatch rsBatch5).results.map (fun e => e.id) = [1, 2, 4, 5] ∧
    (runBatch rsBatch5).results.all (fun e => e.id != 3) = true ∧
    (runBatch rsBatch5).errorMessage = connErrMsg := by
  decide

/-- Claim C10 (amended): the batch counts a fulfilled response in the
Malicious bucket exactly when its label is the string "Malicious", and in
the Normal bucket exactly when its label is non-empty and anything else
(whatever vocabulary the classifier uses); responses with a missing or
empty-string label are skipped entirely, so the two bucket counts sum to
the number of fulfilled responses bearing a non-empty label. -/
theorem batch_bucket_counts :
    ∀ rs : List ApiResult,
      (runBatch rs).malicious = (rs.filter isMaliciousResult).length ∧
      (runBatch rs).normal = (rs.filter isNormalBucket).length ∧
      (runBatch rs).malicious + (runBatch rs).normal = (rs.filter usableResult).length := by
  intro rs
  have h2 := runBatchLoop_malicious rs 0 (⟨[], 0, 0, emptyStr⟩ : BatchOutcome)
  have h3 := runBatchLoop_normal rs 0 (⟨[], 0, 0, emptyStr⟩ : BatchOutcome)
  have h4 := usable_split rs
  simp only [runBatch] at *
  simp at h2 h3
  omega

/-- Counterexample to claim C10 as stated: a batch containing one fulfilled
response whose label is the empty string (hence not "Malicious") counts it
in neither bucket, so the counts sum to 0 while the batch had 1 successful
response. -/
theorem empty_label_not_counted_counterexample :
    (rsEmptyLabel.filter isOkResult).length = 1 ∧
    (runBatch rsEmptyLabel).normal = 0 ∧
    (runBatch rsEmptyLabel).malicious + (runBatch rsEmptyLabel).normal = 0 := by
  decide

/-- `Math.floor(q * (hi - lo + 1)) + lo` lies in `[lo, hi]` whenever
`lo ≤ hi` and `0 ≤ q < 1`. -/
lemma genVal_bounds (lo hi : Int) (hle : lo ≤ hi) (q : ℚ) (h0 : 0 ≤ q) (h1 : q < 1) :
    lo ≤ generateRandomValue lo hi q ∧ generateRandomValue lo hi q ≤ hi := by
  have hspan : (0 : Int) < hi - lo + 1 := by omega
  have hspanQ : (0 : ℚ) < ((hi - lo + 1 : Int) : ℚ) := by exact_mod_cast hspan
  have hf0 : (0 : Int) ≤ ⌊q * ((hi - lo + 1 : Int) : ℚ)⌋ :=
    Int.floor_nonneg.mpr (mul_nonneg h0 (le_of_lt hspanQ))
  have hfLt : ⌊q * ((hi - lo + 1 : Int) : ℚ)⌋ < hi - lo + 1 :=
    Int.floor_lt.mpr (by exact_mod_cast mul_lt_of_lt_one_left hspanQ h1)
  unfold generateRandomValue
  omega

/-- Claim C8: for every draw of the random source (any rational in
`[0, 1)`) and every one of the twelve configured fields, the generated
integer lies within that field's inclusive configured range. -/
theorem generateRandomValue_in_range :
    ∀ (q : ℚ), 0 ≤ q → q < 1 → ∀ fr ∈ randomRanges,
      fr.2.min ≤ generateRandomValue fr.2.min fr.2.max q ∧
      generateRandomValue fr.2.min fr.2.max q ≤ fr.2.max := by
  intro q h0 h1 fr hfr
  have hle : fr.2.min ≤ fr.2.max := by
    fin_cases hfr <;> decide
  exact genVal_bounds fr.2.min fr.2.max hle q h0 h1

/-- Witness for C8 at the destination-port range and the draw 1/2. -/
theorem generateRandomValue_in_range_witness :
    (1 : Int) ≤ generateRandomValue 1 65535 (1 / 2) ∧
    generateRandomValue 1 65535 (1 / 2) ≤ 65535 :=
  generateRandomValue_in_range (1 / 2) (by norm_num) (by norm_num)
    ⟨dstPortStr, ⟨1, 65535⟩⟩ (by decide)
